import Mathlib

/-!
HCMM frontend core, shallowly embedded in Lean.

The definitions below translate the HTTP request pipeline of the
HCMM-frontend repository (auth-token attachment and refresh-on-401 in
src/app/core/interceptors/auth/auth.interceptor.ts, retry with
exponential backoff and error classification in
src/app/core/interceptors/error/error.interceptor.ts), the session
services (src/app/core/services/auth/auth.service.ts and
src/app/core/services/storage/storage.service.ts) and the route
authorization guards (src/app/core/guards/role/role.guard.ts).

Browser localStorage is modelled as a total map from string keys to
optional string values; network calls and the next HTTP handler are
oracles passed in as parameters; the observable side effects of a run
(network posts, handler dispatches, logout and refresh invocations,
storage clearing, navigation) are collected in an event trace in
execution order.
-/

namespace HCMM

/-! ## String machinery

All string computation runs over explicit character lists so that
concrete runs reduce by kernel evaluation. -/

/-- Characters of a string. -/
def chars (s : String) : List Char := s.data

/-- Test whether the second list occurs at the head of the first. -/
def startsWithL : List Char → List Char → Bool
  | _, [] => true
  | [], _ :: _ => false
  | c :: cs, p :: ps => c == p && startsWithL cs ps

/-- Substring occurrence test on character lists. -/
def containsSubL : List Char → List Char → Bool
  | [], pat => startsWithL [] pat
  | c :: cs, pat => startsWithL (c :: cs) pat || containsSubL cs pat

/-- JS url.includes(pat), the substring test used by the interceptors. -/
def containsSub (s pat : String) : Bool := containsSubL (chars s) (chars pat)

/-- Truthiness of a JS string-or-null value: null and the empty string
are falsy, every other string is truthy. -/
def truthy : Option String → Bool
  | none => false
  | some s => s != ""

/-! ## Browser localStorage and the StorageService

storage.service.ts wraps localStorage with fixed keys for the access
token, the refresh token and the serialized user. -/

/-- Browser localStorage: a total map from keys to optional values. -/
def Store : Type := String → Option String

/-- localStorage.setItem. -/
def Store.set (st : Store) (k v : String) : Store :=
  fun q => if q = k then some v else st q

/-- localStorage.removeItem. -/
def Store.remove (st : Store) (k : String) : Store :=
  fun q => if q = k then none else st q

/-- A localStorage with no entries. -/
def emptyStore : Store := fun _ => none

/-- Key ACCESS_TOKEN_KEY of StorageService. -/
def ACCESS_TOKEN_KEY : String := "access_token"

/-- Key REFRESH_TOKEN_KEY of StorageService. -/
def REFRESH_TOKEN_KEY : String := "refresh_token"

/-- Key USER_KEY of StorageService. -/
def USER_KEY : String := "user_data"

/-- StorageService.getAccessToken. -/
def getAccessToken (st : Store) : Option String := st ACCESS_TOKEN_KEY

/-- StorageService.setAccessToken. -/
def setAccessToken (st : Store) (t : String) : Store := st.set ACCESS_TOKEN_KEY t

/-- StorageService.getRefreshToken. -/
def getRefreshToken (st : Store) : Option String := st REFRESH_TOKEN_KEY

/-- StorageService.setRefreshToken. -/
def setRefreshToken (st : Store) (t : String) : Store := st.set REFRESH_TOKEN_KEY t

/-- StorageService.getUser, kept as the raw serialized string. -/
def getUser (st : Store) : Option String := st USER_KEY

/-- StorageService.setUser. -/
def setUser (st : Store) (u : String) : Store := st.set USER_KEY u

/-- StorageService.removeTokens. -/
def removeTokens (st : Store) : Store :=
  (st.remove ACCESS_TOKEN_KEY).remove REFRESH_TOKEN_KEY

/-- StorageService.removerUser. -/
def removerUser (st : Store) : Store := st.remove USER_KEY

/-- StorageService.clear: removeTokens then removerUser. -/
def storageClear (st : Store) : Store := removerUser (removeTokens st)

/-! ## Auth session manager (auth.service.ts) -/

/-- Server payload of login, register and refresh responses. The refresh
flow stores accessToken always and refreshToken only when truthy; the
user field is not touched by the refresh flow. -/
structure AuthResponse where
  accessToken : String
  refreshToken : String
  user : String
deriving DecidableEq

/-- Base URL of the remote API, from auth.service.ts. -/
def apiUrl : String := "https://localhost:8000/api"

/-- URL of the best-effort logout notification. -/
def logoutUrl : String := apiUrl ++ "/logout"

/-- URL of the token refresh endpoint. -/
def refreshUrl : String := apiUrl ++ "/refresh-token"

/-- An outgoing HTTP request as seen by the interceptors: URL, method and
the Authorization header, if any. -/
structure Request where
  url : String
  method : String
  authHeader : Option String
deriving DecidableEq

/-- Clone of a request with an Authorization bearer header set. -/
def setBearer (req : Request) (token : String) : Request :=
  { req with authHeader := some ("Bearer " ++ token) }

/-- Observable side effects of a run, in execution order. -/
inductive Event
  | post (url : String) (ok : Bool)
  | dispatch (req : Request)
  | refreshCall
  | logoutCall
  | storageCleared
  | navigate (url : String)
deriving DecidableEq

/-- Errors flowing through the pipeline: HTTP failure responses carry a
status and the request URL; JS Error objects carry their message. -/
inductive AppError
  | httpErr (status : Nat) (url : String)
  | jsError (msg : String)
deriving DecidableEq

/-- Message of an error, as read by the interceptor: an
HttpErrorResponse message always starts with a fixed failure text. -/
def AppError.message : AppError → String
  | .httpErr _ url => "Http failure response for " ++ url
  | .jsError m => m

/-- Result of invoking the next HTTP handler once. -/
inductive NextResult
  | ok
  | httpFail (status : Nat)
deriving DecidableEq

/-- AuthService.logout: read the refresh token, post a best-effort
notification only when it is truthy (the subscription swallows errors),
then clear storage and navigate to the login route. The notifyOk flag is
the outcome of the fire-and-forget notification; it is recorded in the
trace and never affects the state. -/
def logoutOp (st : Store) (notifyOk : Bool) : Store × List Event :=
  let notifyEvs := if truthy (getRefreshToken st) then [Event.post logoutUrl notifyOk] else []
  (storageClear st,
   Event.logoutCall :: notifyEvs ++ [Event.storageCleared, Event.navigate "/login"])

/-- AuthService.refreshToken: fail immediately when no truthy refresh
token is stored, otherwise post to the refresh endpoint; on success store
the new access token and, when the server rotated it, the new refresh
token; on failure run logout and forward the original error. The server
parameter is the outcome of the refresh POST (status on failure). -/
def refreshTokenOp (st : Store) (server : Except Nat AuthResponse) (notifyOk : Bool) :
    Except AppError AuthResponse × Store × List Event :=
  if truthy (getRefreshToken st) = false then
    (.error (.jsError "No refresh token available"), st, [Event.refreshCall])
  else
    match server with
    | .ok resp =>
      let st1 := setAccessToken st resp.accessToken
      let st2 := if resp.refreshToken != "" then setRefreshToken st1 resp.refreshToken else st1
      (.ok resp, st2, [Event.refreshCall, Event.post refreshUrl true])
    | .error status =>
      let out := logoutOp st notifyOk
      (.error (.httpErr status refreshUrl), out.1,
       Event.refreshCall :: Event.post refreshUrl false :: out.2)

/-! ## Auth interceptor (auth.interceptor.ts) -/

/-- Allow-list test of the auth interceptor: the four substrings whose
presence in the URL skips token attachment and refresh handling. -/
def skipAuthUrl (url : String) : Bool :=
  containsSub url "/auth/login" ||
  containsSub url "/auth/register" ||
  containsSub url "/auth/refresh" ||
  containsSub url "/auth/forgot-password"

/-- Token attachment: clone with a bearer header when a truthy access
token is stored, otherwise pass the request through unchanged. -/
def attachToken (req : Request) (st : Store) : Request :=
  let token := getAccessToken st
  if truthy token then setBearer req (token.getD "") else req

/-- Terminal result of one interceptor run: the settled outcome, the
final localStorage and the event trace. -/
structure PipeResult where
  result : Except AppError Unit
  store : Store
  events : List Event

/-- The auth interceptor, run over one logical request. The next handler
is an oracle indexed by the dispatch count (0 for the initial dispatch, 1
for the re-issued request after a refresh); server is the outcome of the
refresh endpoint; notifyOk is the outcome of the logout notification. -/
def authInterceptorRun (req : Request) (st : Store) (next : Nat → Request → NextResult)
    (server : Except Nat AuthResponse) (notifyOk : Bool) : PipeResult :=
  if skipAuthUrl req.url then
    match next 0 req with
    | .ok => ⟨.ok (), st, [Event.dispatch req]⟩
    | .httpFail status => ⟨.error (.httpErr status req.url), st, [Event.dispatch req]⟩
  else
    let authReq := attachToken req st
    match next 0 authReq with
    | .ok => ⟨.ok (), st, [Event.dispatch authReq]⟩
    | .httpFail status =>
      if (status != 401) || containsSub req.url "/auth/refresh" then
        ⟨.error (.httpErr status req.url), st, [Event.dispatch authReq]⟩
      else
        match refreshTokenOp st server notifyOk with
        | (.ok _, st1, evs1) =>
          let newToken := getAccessToken st1
          if truthy newToken = false then
            let out := logoutOp st1 notifyOk
            let e := AppError.jsError "Token refresh failed"
            if e.message != "Token refresh failed" then
              let out2 := logoutOp out.1 notifyOk
              ⟨.error e, out2.1, Event.dispatch authReq :: evs1 ++ out.2 ++ out2.2⟩
            else
              ⟨.error e, out.1, Event.dispatch authReq :: evs1 ++ out.2⟩
          else
            let retryReq := setBearer req (newToken.getD "")
            match next 1 retryReq with
            | .ok => ⟨.ok (), st1, Event.dispatch authReq :: evs1 ++ [Event.dispatch retryReq]⟩
            | .httpFail status2 =>
              let e := AppError.httpErr status2 req.url
              if e.message != "Token refresh failed" then
                let out := logoutOp st1 notifyOk
                ⟨.error e, out.1,
                 Event.dispatch authReq :: evs1 ++ [Event.dispatch retryReq] ++ out.2⟩
              else
                ⟨.error e, st1, Event.dispatch authReq :: evs1 ++ [Event.dispatch retryReq]⟩
        | (.error e, st1, evs1) =>
          if e.message != "Token refresh failed" then
            let out := logoutOp st1 notifyOk
            ⟨.error e, out.1, Event.dispatch authReq :: evs1 ++ out.2⟩
          else
            ⟨.error e, st1, Event.dispatch authReq :: evs1⟩

/-! ## Trace observations -/

/-- Dispatch events of a trace, in order. -/
def dispatches : List Event → List Request
  | [] => []
  | Event.dispatch r :: es => r :: dispatches es
  | _ :: es => dispatches es

/-- Test for a refresh invocation event. -/
def isRefreshCall : Event → Bool
  | Event.refreshCall => true
  | _ => false

/-- Test for a logout invocation event. -/
def isLogoutCall : Event → Bool
  | Event.logoutCall => true
  | _ => false

/-- Test for a network post event. -/
def isPostEvent : Event → Bool
  | Event.post _ _ => true
  | _ => false

/-- Number of refresh invocations in a trace. -/
def countRefreshCalls (evs : List Event) : Nat := (evs.filter isRefreshCall).length

/-- Number of logout invocations in a trace. -/
def countLogoutCalls (evs : List Event) : Nat := (evs.filter isLogoutCall).length

/-- Number of network posts in a trace. -/
def countPosts (evs : List Event) : Nat := (evs.filter isPostEvent).length

/-! ## Retry interceptor (error.interceptor.ts, retryInterceptor) -/

/-- maxRetries constant of the retry interceptor. -/
def maxRetries : Nat := 3

/-- initialDelay constant of the retry interceptor, in milliseconds. -/
def initialDelay : Nat := 1000

/-- Request shape consumed by the retry interceptor: the method and the
set of header names present. -/
structure RetryReq where
  method : String
  headers : List String
deriving DecidableEq

/-- Settlement of one retried logical request: total number of attempts
issued, the backoff delays waited between successive attempts, and the
outcome of the last attempt, which is the one surfaced. -/
structure RetryRun where
  attempts : Nat
  delays : List Nat
  final : NextResult
deriving DecidableEq

/-- Recursive handleRequest of the retry interceptor: dispatch the
attempt at the current index; on failure retry while the next retry index
is within maxRetries and the status is 0 or at least 500, waiting an
exponentially growing delay. The outcomes oracle gives the result of each
attempt by index. -/
def handleRequest (outcomes : Nat → NextResult) (attempt : Nat) : RetryRun :=
  match outcomes attempt with
  | .ok => ⟨1, [], .ok⟩
  | .httpFail status =>
    if h : attempt + 1 ≤ maxRetries ∧ (status = 0 ∨ 500 ≤ status) then
      let delayMs := 2 ^ (attempt + 1 - 1) * initialDelay
      let rest := handleRequest outcomes (attempt + 1)
      ⟨rest.attempts + 1, delayMs :: rest.delays, rest.final⟩
    else ⟨1, [], .httpFail status⟩
termination_by maxRetries + 1 - attempt
decreasing_by simp only [maxRetries] at *; omega

/-- The retry interceptor: non-GET requests and requests carrying the
X-Skip-Retry header are dispatched exactly once; GET requests enter the
retry loop starting at attempt 0. -/
def retryInterceptorRun (req : RetryReq) (outcomes : Nat → NextResult) : RetryRun :=
  if req.method != "GET" then ⟨1, [], outcomes 0⟩
  else if req.headers.contains "X-Skip-Retry" then ⟨1, [], outcomes 0⟩
  else handleRequest outcomes 0

/-! ## Error classification stage (error.interceptor.ts) -/

/-- Value under one field of a 422 error body errors map: either a single
message or an array of messages. -/
inductive JsonMsgs
  | one (m : String)
  | many (ms : List String)
deriving DecidableEq

/-- Messages carried by a field value; a non-array value counts as one
message, as in the Array.isArray branch of the source. -/
def msgsList : JsonMsgs → List String
  | .one m => [m]
  | .many ms => ms

/-- handleValidationError: with notifications enabled, a field-to-messages
map produces one toast per message, titled with its field; without a map a
single generic validation toast is produced. Each toast is returned as a
message-title pair in emission order. -/
def handleValidationError (showToast : Bool) (errorsMap : Option (List (String × JsonMsgs)))
    (bodyMessage : Option String) : List (String × String) :=
  if showToast = false then []
  else
    match errorsMap with
    | some entries =>
      entries.flatMap fun e =>
        (msgsList e.2).map fun m => (m, "Validation Error: " ++ e.1)
    | none =>
      [(bodyMessage.getD "Validation error. Please check your input.", "Validation Error")]

/-- Refresh endpoint test of handleUnauthorized. -/
def isRefreshUrl (url : String) : Bool :=
  containsSub url "/auth/refresh" || containsSub url "/refresh-token"

/-- clearAuthentication of the error interceptor: removes five fixed keys
from localStorage and the same five from sessionStorage. -/
def clearAuthentication (ls ss : Store) : Store × Store :=
  (((((ls.remove "token").remove "accessToken").remove "refreshToken").remove
      "user").remove "auth",
   ((((ss.remove "token").remove "accessToken").remove "refreshToken").remove
      "user").remove "auth")

/-- Result of handleUnauthorized: toasts emitted, the two storages after
the handler, and the deferred navigation, if scheduled, as a target path
paired with the returnUrl query parameter. -/
structure UnauthorizedResult where
  toasts : List (String × String)
  ls : Store
  ss : Store
  scheduledNav : Option (String × String)

/-- handleUnauthorized: for a 401 whose URL is not a refresh endpoint,
show a toast (unless suppressed), clear authentication state (when
configured) and schedule a deferred redirect to the login route carrying
the current router URL as returnUrl; a refresh endpoint URL takes neither
branch. -/
def handleUnauthorized (url : String) (showToast clearAuthOn401 : Bool)
    (message routerUrl : String) (ls ss : Store) : UnauthorizedResult :=
  let isRefresh := isRefreshUrl url
  let toasts := if !isRefresh && showToast then [(message, "Authentication Error")] else []
  if clearAuthOn401 && !isRefresh then
    let cleared := clearAuthentication ls ss
    ⟨toasts, cleared.1, cleared.2, some ("/login", routerUrl)⟩
  else ⟨toasts, ls, ss, none⟩

/-! ## Route authorization guards (role.guard.ts) -/

/-- UserRole enum of models/user.model.ts. -/
inductive UserRole
  | customer
  | cook
  | delivery_guy
  | admin
deriving DecidableEq

/-- Snapshot of the auth signals read by the guards: the isAuthenticated
flag and the role of the current user, if any. -/
structure AuthSnapshot where
  isAuth : Bool
  role : Option UserRole
deriving DecidableEq

/-- AuthService.hasAnyRole: false when no user role is present, otherwise
membership of the role in the given list. -/
def hasAnyRole (snap : AuthSnapshot) (roles : List UserRole) : Bool :=
  match snap.role with
  | some r => roles.contains r
  | none => false

/-- Result of a guard: allow, or redirect to a path, optionally carrying
a returnUrl query parameter. -/
inductive GuardResult
  | allow
  | redirect (path : String) (returnUrl : Option String)
deriving DecidableEq

/-- roleGuard: unauthenticated users are redirected to the login route
with the attempted URL as returnUrl; an absent or empty required-role
list admits any authenticated user; otherwise the user role must be in
the list, else redirect to the unauthorized route. -/
def roleGuard (snap : AuthSnapshot) (requiredRoles : Option (List UserRole))
    (stateUrl : String) : GuardResult :=
  if snap.isAuth = false then .redirect "/auth/login" (some stateUrl)
  else
    match requiredRoles with
    | none => .allow
    | some roles =>
      if roles.length = 0 then .allow
      else if hasAnyRole snap roles then .allow
      else .redirect "/unauthorized" none

/-- Dashboard route map shared by guestGuard and autoLoginGuard; every
role of the enum is a key of the map. -/
def dashboardRoute : UserRole → String
  | .customer => "/customer/dashboard"
  | .cook => "/cook/dashboard"
  | .delivery_guy => "/delivery_guy/dashboard"
  | .admin => "/admin/dashboard"

/-- guestGuard: unauthenticated users pass; authenticated users are
redirected to their role dashboard, or to the root when no role is
present. -/
def guestGuard (snap : AuthSnapshot) : GuardResult :=
  if snap.isAuth = false then .allow
  else
    match snap.role with
    | some r => .redirect (dashboardRoute r) none
    | none => .redirect "/" none

/-- autoLoginGuard: authenticated users are redirected to their role
dashboard, falling back to the customer dashboard when no role is
present; unauthenticated users pass. -/
def autoLoginGuard (snap : AuthSnapshot) : GuardResult :=
  if snap.isAuth then
    match snap.role with
    | some r => .redirect (dashboardRoute r) none
    | none => .redirect "/customer/dashboard" none
  else .allow

/-! ## Token codec (auth.service.ts, decodeToken and isTokenValid)

decodeToken takes the middle dot-separated segment of the token, maps the
base64url characters to base64, decodes it with atob, UTF-8 decodes the
resulting bytes (the percent-encoding round trip through
decodeURIComponent) and parses the JSON payload. Every failure of this
pipeline is caught by isTokenValid, which then returns false. -/

/-- Decoded token payload, from models/user.model.ts; the role is kept as
its enum string value. -/
structure TokenPayload where
  sub : String
  email : String
  role : String
  iat : Nat
  exp : Nat
deriving DecidableEq

/-- Split a character list on a separator character; mirrors JS
String.split with a single-character separator. -/
def splitOnChar (sep : Char) : List Char → List (List Char)
  | [] => [[]]
  | c :: cs =>
    let rest := splitOnChar sep cs
    if c == sep then [] :: rest
    else
      match rest with
      | r :: rs => (c :: r) :: rs
      | [] => [[c]]

/-- Character replacement of decodeToken turning base64url into base64. -/
def b64UrlToB64 (c : Char) : Char :=
  if c == '-' then '+' else if c == '_' then '/' else c

/-- The standard base64 alphabet, indexed by sextet value. -/
def b64Alphabet : List Char :=
  chars "ABCDEFGHIJKLMNOPQRSTUVWXYZabcdefghijklmnopqrstuvwxyz0123456789+/"

/-- Encoding of a sextet as a base64 character. -/
def b64Char (n : Nat) : Char := b64Alphabet.getD n '='

/-- Decoding of a base64 character back to its sextet; none for a
character outside the alphabet. -/
def b64Index (c : Char) : Option Nat := b64Alphabet.findIdx? (· == c)

/-- atob over character lists: groups of four base64 characters decode to
three bytes; terminal groups may carry padding or be two or three
characters long, as browsers accept; a lone trailing character, interior
padding or a character outside the alphabet is rejected. -/
def atobChars : List Char → Option (List Nat)
  | [] => some []
  | [_] => none
  | [c0, c1] => do
    let s0 ← b64Index c0
    let s1 ← b64Index c1
    pure [s0 * 4 + s1 / 16]
  | [c0, c1, c2] => do
    let s0 ← b64Index c0
    let s1 ← b64Index c1
    let s2 ← b64Index c2
    pure [s0 * 4 + s1 / 16, s1 % 16 * 16 + s2 / 4]
  | c0 :: c1 :: c2 :: c3 :: rest => do
    let s0 ← b64Index c0
    let s1 ← b64Index c1
    if c2 == '=' then
      if c3 == '=' && rest.isEmpty then pure [s0 * 4 + s1 / 16] else none
    else do
      let s2 ← b64Index c2
      if c3 == '=' then
        if rest.isEmpty then pure [s0 * 4 + s1 / 16, s1 % 16 * 16 + s2 / 4] else none
      else do
        let s3 ← b64Index c3
        let tail ← atobChars rest
        pure ((s0 * 4 + s1 / 16) :: (s1 % 16 * 16 + s2 / 4) :: (s2 % 4 * 64 + s3) :: tail)

/-- Decoding of one UTF-8 scalar from a leading byte and the following
bytes: the code point and the unconsumed remainder; none on truncated or
malformed sequences, overlong encodings, surrogates and out-of-range code
points. -/
def utf8Step (b : Nat) (bs : List Nat) : Option (Nat × List Nat) :=
  if b < 128 then some (b, bs)
  else if 192 ≤ b ∧ b < 224 then
    match bs with
    | b1 :: bs1 =>
      if 128 ≤ b1 ∧ b1 < 192 then
        let n := (b - 192) * 64 + (b1 - 128)
        if n < 128 then none else some (n, bs1)
      else none
    | [] => none
  else if 224 ≤ b ∧ b < 240 then
    match bs with
    | b1 :: b2 :: bs2 =>
      if (128 ≤ b1 ∧ b1 < 192) ∧ (128 ≤ b2 ∧ b2 < 192) then
        let n := (b - 224) * 4096 + (b1 - 128) * 64 + (b2 - 128)
        if n < 2048 ∨ (55296 ≤ n ∧ n ≤ 57343) then none else some (n, bs2)
      else none
    | _ => none
  else if 240 ≤ b ∧ b < 245 then
    match bs with
    | b1 :: b2 :: b3 :: bs3 =>
      if (128 ≤ b1 ∧ b1 < 192) ∧ (128 ≤ b2 ∧ b2 < 192) ∧ (128 ≤ b3 ∧ b3 < 192) then
        let n := (b - 240) * 262144 + (b1 - 128) * 4096 + (b2 - 128) * 64 + (b3 - 128)
        if n < 65536 ∨ 1114111 < n then none else some (n, bs3)
      else none
    | _ => none
  else none

/-- UTF-8 decoding of a byte list into characters, the net effect of the
percent-encoding round trip through decodeURIComponent in decodeToken;
none whenever any scalar fails to decode. -/
def utf8Decode : List Nat → Option (List Char)
  | [] => some []
  | b :: bs =>
    match h : utf8Step b bs with
    | none => none
    | some out => (utf8Decode out.2).bind fun rest => some (Char.ofNat out.1 :: rest)
termination_by l => l.length
decreasing_by
  simp only [utf8Step] at h
  repeat' split at h
  any_goals exact Option.noConfusion h
  all_goals (rw [← Option.some.inj h]; simp only [List.length_cons]; omega)

/-- UTF-8 encoding of characters into bytes. -/
def utf8Encode : List Char → List Nat
  | [] => []
  | c :: cs =>
    let n := c.toNat
    (if n < 128 then [n]
     else if n < 2048 then [192 + n / 64, 128 + n % 64]
     else if n < 65536 then [224 + n / 4096, 128 + n / 64 % 64, 128 + n % 64]
     else [240 + n / 262144, 128 + n / 4096 % 64, 128 + n / 64 % 64, 128 + n % 64])
      ++ utf8Encode cs

/-- Decimal digit character of a value below ten. -/
def digitChar (d : Nat) : Char := Char.ofNat (48 + d)

/-- Digit test used by the payload number parser. -/
def isDigitC (c : Char) : Bool := 48 ≤ c.toNat && c.toNat ≤ 57

/-- Accumulator loop producing the decimal digits of a number, most
significant first. -/
def natToCharsAux : Nat → List Char → List Char
  | 0, acc => acc
  | n + 1, acc => natToCharsAux ((n + 1) / 10) (digitChar ((n + 1) % 10) :: acc)
decreasing_by exact Nat.div_lt_self (Nat.succ_pos n) (by omega)

/-- Decimal representation of a number. -/
def natToChars (n : Nat) : List Char := if n = 0 then ['0'] else natToCharsAux n []

/-- Value of a decimal digit string, most significant first. -/
def charsToNat (cs : List Char) : Nat := cs.foldl (fun a c => a * 10 + (c.toNat - 48)) 0

/-- Number of decimal digits produced by natToCharsAux for a value. -/
def digitCount : Nat → Nat
  | 0 => 0
  | n + 1 => digitCount ((n + 1) / 10) + 1
decreasing_by exact Nat.div_lt_self (Nat.succ_pos n) (by omega)

/-- JSON serialization of a token payload in field order sub, email,
role, iat, exp, without string escaping; the closing quote of each string
field and the separators are exposed as explicit characters. -/
def jsonOfPayload (p : TokenPayload) : List Char :=
  chars "\x7b\"sub\":\"" ++ (chars p.sub ++ '"' ::
    (chars ",\"email\":\"" ++ (chars p.email ++ '"' ::
      (chars ",\"role\":\"" ++ (chars p.role ++ '"' ::
        (chars ",\"iat\":" ++ (natToChars p.iat ++ ',' ::
          (chars "\"exp\":" ++ (natToChars p.exp ++ '\x7d' :: [])))))))))

/-- Expect a literal character sequence at the head of the input and
return the remainder. -/
def stripChars : List Char → List Char → Option (List Char)
  | [], s => some s
  | _ :: _, [] => none
  | p :: ps, c :: cs => if c == p then stripChars ps cs else none

/-- Consume input up to the next double quote, returning the consumed
characters and the remainder after the quote. -/
def takeUntilQuote : List Char → Option (List Char × List Char)
  | [] => none
  | c :: cs =>
    if c == '"' then some ([], cs)
    else do
      let out ← takeUntilQuote cs
      pure (c :: out.1, out.2)

/-- Longest digit run at the head of the input, with the remainder. -/
def takeDigits (cs : List Char) : List Char × List Char :=
  (cs.takeWhile isDigitC, cs.dropWhile isDigitC)

/-- Modelled from the spec: the JSON.parse step of decodeToken is a
platform primitive, not code of this repository; it is modelled here as a
parser of the TokenPayload object shape that decodeToken casts its result
to, with fields sub, email, role, iat, exp in serialization order. -/
def parsePayload (cs : List Char) : Option TokenPayload := do
  let s1 ← stripChars (chars "\x7b\"sub\":\"") cs
  let r1 ← takeUntilQuote s1
  let s2 ← stripChars (chars ",\"email\":\"") r1.2
  let r2 ← takeUntilQuote s2
  let s3 ← stripChars (chars ",\"role\":\"") r2.2
  let r3 ← takeUntilQuote s3
  let s4 ← stripChars (chars ",\"iat\":") r3.2
  let d1 := takeDigits s4
  if d1.1.isEmpty then none
  else do
    let s5 ← stripChars (chars ",\"exp\":") d1.2
    let d2 := takeDigits s5
    if d2.1.isEmpty then none
    else if d2.2 == ['\x7d'] then
      pure ⟨String.mk r1.1, String.mk r2.1, String.mk r3.1, charsToNat d1.1, charsToNat d2.1⟩
    else none

/-- decodeToken of auth.service.ts as a total function: none wherever the
source would throw. The middle dot-separated segment is mapped from
base64url to base64, atob-decoded, UTF-8 decoded and parsed. -/
def decodeTokenOpt (token : String) : Option TokenPayload := do
  let segs := splitOnChar '.' (chars token)
  let base64Url ← segs[1]?
  let base64 := base64Url.map b64UrlToB64
  let bytes ← atobChars base64
  let jsonChars ← utf8Decode bytes
  parsePayload jsonChars

/-- isTokenValid of auth.service.ts: the payload expiry must be strictly
in the future; any decode failure is caught and yields false. -/
def isTokenValid (token : String) (currentTime : Nat) : Bool :=
  match decodeTokenOpt token with
  | some payload => decide (currentTime < payload.exp)
  | none => false

/-- Modelled from the spec: the token encoder lives server-side and is
not code of this repository; per the spec a token is three dot-separated
segments whose middle segment encodes the JSON payload, here in padded
base64 over the UTF-8 bytes, which decodeToken accepts unchanged. -/
def b64EncodeBytes : List Nat → List Char
  | [] => []
  | [b0] => [b64Char (b0 / 4), b64Char (b0 % 4 * 16), '=', '=']
  | [b0, b1] =>
    [b64Char (b0 / 4), b64Char (b0 % 4 * 16 + b1 / 16), b64Char (b1 % 16 * 4), '=']
  | b0 :: b1 :: b2 :: rest =>
    b64Char (b0 / 4) :: b64Char (b0 % 4 * 16 + b1 / 16) ::
    b64Char (b1 % 16 * 4 + b2 / 64) :: b64Char (b2 % 64) :: b64EncodeBytes rest

/-- Modelled from the spec: a well-formed token encoding a payload, as
produced by the server: base64 header segment, base64 JSON payload
segment and base64 signature segment, joined by dots. -/
def encodeToken (header : String) (p : TokenPayload) (sig : String) : String :=
  String.mk
    (b64EncodeBytes (utf8Encode (chars header)) ++
     '.' :: b64EncodeBytes (utf8Encode (jsonOfPayload p)) ++
     '.' :: b64EncodeBytes (utf8Encode (chars sig)))

/-- Payload strings that serialize and reparse without escaping: ASCII
with no double quote. -/
def plainField (s : String) : Bool :=
  (chars s).all fun c => c.toNat < 128 && c != '"'

/-! ## Helper lemmas on the store and traces -/

theorem getAccessToken_storageClear (st : Store) : getAccessToken (storageClear st) = none := rfl

theorem getRefreshToken_storageClear (st : Store) : getRefreshToken (storageClear st) = none := rfl

theorem getUser_storageClear (st : Store) : getUser (storageClear st) = none := rfl

theorem getAccessToken_setAccessToken (st : Store) (t : String) :
    getAccessToken (setAccessToken st t) = some t := rfl

theorem getAccessToken_setRefreshToken (st : Store) (t : String) :
    getAccessToken (setRefreshToken st t) = getAccessToken st := rfl

theorem getRefreshToken_setAccessToken (st : Store) (t : String) :
    getRefreshToken (setAccessToken st t) = getRefreshToken st := rfl

theorem getRefreshToken_setRefreshToken (st : Store) (t : String) :
    getRefreshToken (setRefreshToken st t) = some t := rfl

@[simp] theorem truthy_some (s : String) : truthy (some s) = (s != "") := rfl

@[simp] theorem dispatches_nil : dispatches [] = [] := rfl

@[simp] theorem dispatches_cons_dispatch (r : Request) (l : List Event) :
    dispatches (Event.dispatch r :: l) = r :: dispatches l := rfl

@[simp] theorem dispatches_cons_post (u : String) (b : Bool) (l : List Event) :
    dispatches (Event.post u b :: l) = dispatches l := rfl

@[simp] theorem dispatches_cons_refreshCall (l : List Event) :
    dispatches (Event.refreshCall :: l) = dispatches l := rfl

@[simp] theorem dispatches_cons_logoutCall (l : List Event) :
    dispatches (Event.logoutCall :: l) = dispatches l := rfl

@[simp] theorem dispatches_cons_storageCleared (l : List Event) :
    dispatches (Event.storageCleared :: l) = dispatches l := rfl

@[simp] theorem dispatches_cons_navigate (u : String) (l : List Event) :
    dispatches (Event.navigate u :: l) = dispatches l := rfl

@[simp] theorem dispatches_append (a b : List Event) :
    dispatches (a ++ b) = dispatches a ++ dispatches b := by
  induction a with
  | nil => rfl
  | cons e es ih => cases e <;> simp [dispatches, ih]

@[simp] theorem countRefreshCalls_nil : countRefreshCalls [] = 0 := rfl

@[simp] theorem countRefreshCalls_cons_dispatch (r : Request) (l : List Event) :
    countRefreshCalls (Event.dispatch r :: l) = countRefreshCalls l := rfl

@[simp] theorem countRefreshCalls_cons_post (u : String) (b : Bool) (l : List Event) :
    countRefreshCalls (Event.post u b :: l) = countRefreshCalls l := rfl

@[simp] theorem countRefreshCalls_cons_refreshCall (l : List Event) :
    countRefreshCalls (Event.refreshCall :: l) = countRefreshCalls l + 1 := by
  simp [countRefreshCalls, List.filter_cons, isRefreshCall]

@[simp] theorem countRefreshCalls_cons_logoutCall (l : List Event) :
    countRefreshCalls (Event.logoutCall :: l) = countRefreshCalls l := rfl

@[simp] theorem countRefreshCalls_cons_storageCleared (l : List Event) :
    countRefreshCalls (Event.storageCleared :: l) = countRefreshCalls l := rfl

@[simp] theorem countRefreshCalls_cons_navigate (u : String) (l : List Event) :
    countRefreshCalls (Event.navigate u :: l) = countRefreshCalls l := rfl

@[simp] theorem countRefreshCalls_append (a b : List Event) :
    countRefreshCalls (a ++ b) = countRefreshCalls a + countRefreshCalls b := by
  simp [countRefreshCalls, List.filter_append]

@[simp] theorem countLogoutCalls_nil : countLogoutCalls [] = 0 := rfl

@[simp] theorem countLogoutCalls_cons_dispatch (r : Request) (l : List Event) :
    countLogoutCalls (Event.dispatch r :: l) = countLogoutCalls l := rfl

@[simp] theorem countLogoutCalls_cons_post (u : String) (b : Bool) (l : List Event) :
    countLogoutCalls (Event.post u b :: l) = countLogoutCalls l := rfl

@[simp] theorem countLogoutCalls_cons_refreshCall (l : List Event) :
    countLogoutCalls (Event.refreshCall :: l) = countLogoutCalls l := rfl

@[simp] theorem countLogoutCalls_cons_logoutCall (l : List Event) :
    countLogoutCalls (Event.logoutCall :: l) = countLogoutCalls l + 1 := by
  simp [countLogoutCalls, List.filter_cons, isLogoutCall]

@[simp] theorem countLogoutCalls_cons_storageCleared (l : List Event) :
    countLogoutCalls (Event.storageCleared :: l) = countLogoutCalls l := rfl

@[simp] theorem countLogoutCalls_cons_navigate (u : String) (l : List Event) :
    countLogoutCalls (Event.navigate u :: l) = countLogoutCalls l := rfl

@[simp] theorem countLogoutCalls_append (a b : List Event) :
    countLogoutCalls (a ++ b) = countLogoutCalls a + countLogoutCalls b := by
  simp [countLogoutCalls, List.filter_append]

@[simp] theorem getAccessToken_logoutOp (st : Store) (b : Bool) :
    getAccessToken (logoutOp st b).1 = none := rfl

@[simp] theorem getRefreshToken_logoutOp (st : Store) (b : Bool) :
    getRefreshToken (logoutOp st b).1 = none := rfl

@[simp] theorem getUser_logoutOp (st : Store) (b : Bool) :
    getUser (logoutOp st b).1 = none := rfl

@[simp] theorem dispatches_logoutOp (st : Store) (b : Bool) :
    dispatches (logoutOp st b).2 = [] := by
  cases h : truthy (getRefreshToken st) <;> simp [logoutOp, h]

@[simp] theorem countRefreshCalls_logoutOp (st : Store) (b : Bool) :
    countRefreshCalls (logoutOp st b).2 = 0 := by
  cases h : truthy (getRefreshToken st) <;> simp [logoutOp, h]

@[simp] theorem countLogoutCalls_logoutOp (st : Store) (b : Bool) :
    countLogoutCalls (logoutOp st b).2 = 1 := by
  cases h : truthy (getRefreshToken st) <;> simp [logoutOp, h]

/-! ## C4: logout always clears the session synchronously -/

/-- C4: after any logout call the session store is empty, whatever the
outcome of the best-effort server notification; when no refresh token is
present no network call is issued at all, yet the state is still
cleared. -/
theorem c4_logout_clears_session (st : Store) (notifyOk : Bool) :
    getAccessToken (logoutOp st notifyOk).1 = none ∧
    getRefreshToken (logoutOp st notifyOk).1 = none ∧
    getUser (logoutOp st notifyOk).1 = none ∧
    (truthy (getRefreshToken st) = false →
      (logoutOp st notifyOk).2 =
        [Event.logoutCall, Event.storageCleared, Event.navigate "/login"]) ∧
    (truthy (getRefreshToken st) = true →
      (logoutOp st notifyOk).2 =
        [Event.logoutCall, Event.post logoutUrl notifyOk, Event.storageCleared,
         Event.navigate "/login"]) := by
  refine ⟨rfl, rfl, rfl, ?_, ?_⟩ <;> intro h <;> simp [logoutOp, h]

/-- Concrete populated localStorage used by the witnesses. -/
def demoStore : Store := fun k =>
  if k = "access_token" then some "oldTok"
  else if k = "refresh_token" then some "refTok"
  else if k = "user_data" then some "userJson"
  else none

theorem c4_logout_clears_session_witness :
    getAccessToken (logoutOp demoStore true).1 = none ∧
    (logoutOp demoStore true).2 =
      [Event.logoutCall, Event.post logoutUrl true, Event.storageCleared,
       Event.navigate "/login"] :=
  ⟨(c4_logout_clears_session demoStore true).1,
   (c4_logout_clears_session demoStore true).2.2.2.2 (by decide)⟩

/-! ## C5: the refreshToken contract -/

/-- C5: refreshToken fails immediately with the no-refresh-token error
and no network call when the stored refresh token is absent; on server
success it stores the new access token and, exactly when the server
rotated it, the new refresh token; on server failure it runs the logout
transition, leaving an empty session, and forwards the original error. -/
theorem c5_refresh_token_contract (st : Store) (server : Except Nat AuthResponse)
    (notifyOk : Bool) :
    (truthy (getRefreshToken st) = false →
      refreshTokenOp st server notifyOk =
        (.error (.jsError "No refresh token available"), st, [Event.refreshCall])) ∧
    (∀ resp, truthy (getRefreshToken st) = true → server = .ok resp →
      (refreshTokenOp st server notifyOk).1 = .ok resp ∧
      getAccessToken (refreshTokenOp st server notifyOk).2.1 = some resp.accessToken ∧
      (resp.refreshToken ≠ "" →
        getRefreshToken (refreshTokenOp st server notifyOk).2.1 = some resp.refreshToken) ∧
      (resp.refreshToken = "" →
        getRefreshToken (refreshTokenOp st server notifyOk).2.1 = getRefreshToken st)) ∧
    (∀ code, truthy (getRefreshToken st) = true → server = .error code →
      (refreshTokenOp st server notifyOk).1 = .error (.httpErr code refreshUrl) ∧
      getAccessToken (refreshTokenOp st server notifyOk).2.1 = none ∧
      getRefreshToken (refreshTokenOp st server notifyOk).2.1 = none ∧
      getUser (refreshTokenOp st server notifyOk).2.1 = none ∧
      countLogoutCalls (refreshTokenOp st server notifyOk).2.2 = 1) := by
  refine ⟨?_, ?_, ?_⟩
  · intro h
    simp [refreshTokenOp, h]
  · rintro resp h rfl
    rcases eq_or_ne resp.refreshToken "" with hr | hr <;>
      simp [refreshTokenOp, h, hr, getAccessToken_setAccessToken,
        getAccessToken_setRefreshToken, getRefreshToken_setRefreshToken,
        getRefreshToken_setAccessToken]
  · rintro code h rfl
    refine ⟨?_, ?_, ?_, ?_, ?_⟩ <;>
      simp [refreshTokenOp, h, getAccessToken_storageClear, getRefreshToken_storageClear,
        getUser_storageClear, logoutOp, countLogoutCalls, isLogoutCall, List.filter]

theorem c5_refresh_token_contract_witness :
    (refreshTokenOp demoStore (.ok ⟨"newTok", "newRef", "u"⟩) true).1 =
      .ok ⟨"newTok", "newRef", "u"⟩ ∧
    getAccessToken (refreshTokenOp demoStore (.ok ⟨"newTok", "newRef", "u"⟩) true).2.1 =
      some "newTok" ∧
    getRefreshToken (refreshTokenOp demoStore (.ok ⟨"newTok", "newRef", "u"⟩) true).2.1 =
      some "newRef" := by
  have h := (c5_refresh_token_contract demoStore (.ok ⟨"newTok", "newRef", "u"⟩) true).2.1
    ⟨"newTok", "newRef", "u"⟩ (by decide) rfl
  exact ⟨h.1, h.2.1, h.2.2.1 (by decide)⟩

/-! ## C1: refresh-on-401 in the auth interceptor -/

theorem httpErr_message_ne (status : Nat) (url : String) :
    ((AppError.httpErr status url).message != "Token refresh failed") = true := by
  simp only [AppError.message, bne_iff_ne, ne_eq]
  intro h
  have hlen := congrArg String.length h
  rw [String.length_append] at hlen
  have h1 : ("Http failure response for ").length = 26 := rfl
  have h2 : ("Token refresh failed").length = 20 := rfl
  omega

/-- C1: for a non-exempt request failing with 401, refreshToken is
invoked at most once; on refresh success the original request is
re-issued exactly once carrying the new access token, and its outcome,
including a second 401, settles the run without further retries; on
refresh failure, and likewise when no refresh token is stored, logout has
run, the session is empty, the request is never re-issued and the refresh
error is the terminal result. -/
theorem c1_auth_interceptor_401_refresh
    (req : Request) (st : Store) (next : Nat → Request → NextResult)
    (server : Except Nat AuthResponse) (notifyOk : Bool)
    (hskip : skipAuthUrl req.url = false)
    (hnr : containsSub req.url "/auth/refresh" = false)
    (h401 : next 0 (attachToken req st) = NextResult.httpFail 401) :
    countRefreshCalls (authInterceptorRun req st next server notifyOk).events ≤ 1 ∧
    (∀ resp, server = .ok resp → truthy (getRefreshToken st) = true →
      resp.accessToken ≠ "" →
      dispatches (authInterceptorRun req st next server notifyOk).events =
        [attachToken req st, setBearer req resp.accessToken] ∧
      (next 1 (setBearer req resp.accessToken) = .ok →
        (authInterceptorRun req st next server notifyOk).result = .ok ()) ∧
      (∀ status2, next 1 (setBearer req resp.accessToken) = .httpFail status2 →
        (authInterceptorRun req st next server notifyOk).result =
          .error (.httpErr status2 req.url))) ∧
    (∀ code, server = .error code → truthy (getRefreshToken st) = true →
      1 ≤ countLogoutCalls (authInterceptorRun req st next server notifyOk).events ∧
      getAccessToken (authInterceptorRun req st next server notifyOk).store = none ∧
      getRefreshToken (authInterceptorRun req st next server notifyOk).store = none ∧
      getUser (authInterceptorRun req st next server notifyOk).store = none ∧
      (authInterceptorRun req st next server notifyOk).result =
        .error (.httpErr code refreshUrl) ∧
      dispatches (authInterceptorRun req st next server notifyOk).events =
        [attachToken req st]) ∧
    (truthy (getRefreshToken st) = false →
      1 ≤ countLogoutCalls (authInterceptorRun req st next server notifyOk).events ∧
      (authInterceptorRun req st next server notifyOk).result =
        .error (.jsError "No refresh token available") ∧
      dispatches (authInterceptorRun req st next server notifyOk).events =
        [attachToken req st]) := by
  refine ⟨?_, ?_, ?_, ?_⟩
  · -- refreshToken is invoked at most once, in every branch
    by_cases hrt : truthy (getRefreshToken st) = true
    · rcases server with code | resp
      · simp [authInterceptorRun, hskip, h401, hnr, refreshTokenOp, hrt,
          httpErr_message_ne]
      · rcases eq_or_ne resp.accessToken "" with ha | ha
        · rcases eq_or_ne resp.refreshToken "" with hr | hr <;>
            simp [authInterceptorRun, hskip, h401, hnr, refreshTokenOp, hrt, ha, hr,
              getAccessToken_setAccessToken, getAccessToken_setRefreshToken,
              AppError.message]
        · rcases eq_or_ne resp.refreshToken "" with hr | hr <;>
            cases hnext2 : next 1 (setBearer req resp.accessToken) <;>
            simp [authInterceptorRun, hskip, h401, hnr, refreshTokenOp, hrt, hr, ha,
              getAccessToken_setAccessToken, getAccessToken_setRefreshToken,
              hnext2, httpErr_message_ne]
    · simp only [Bool.not_eq_true] at hrt
      simp [authInterceptorRun, hskip, h401, hnr, refreshTokenOp, hrt,
        AppError.message]
  · rintro resp rfl hrt ha
    have hsome : getAccessToken
        (if resp.refreshToken = "" then setAccessToken st resp.accessToken
        else setRefreshToken (setAccessToken st resp.accessToken) resp.refreshToken) =
          some resp.accessToken := by
      rcases eq_or_ne resp.refreshToken "" with hr | hr <;>
        simp [hr, getAccessToken_setAccessToken, getAccessToken_setRefreshToken]
    refine ⟨?_, ?_, ?_⟩
    · cases hnext2 : next 1 (setBearer req resp.accessToken) <;>
        simp [authInterceptorRun, hskip, h401, hnr, refreshTokenOp, hrt, hsome,
          ha, hnext2, httpErr_message_ne]
    · intro hok
      simp [authInterceptorRun, hskip, h401, hnr, refreshTokenOp, hrt, hsome,
        ha, hok]
    · intro status2 hfail
      simp [authInterceptorRun, hskip, h401, hnr, refreshTokenOp, hrt, hsome,
        ha, hfail, httpErr_message_ne]
  · rintro code rfl hrt
    refine ⟨?_, ?_, ?_, ?_, ?_, ?_⟩ <;>
      simp [authInterceptorRun, hskip, h401, hnr, refreshTokenOp, hrt,
        httpErr_message_ne]
  · intro hrt
    refine ⟨?_, ?_, ?_⟩ <;>
      simp [authInterceptorRun, hskip, h401, hnr, refreshTokenOp, hrt,
        AppError.message]

/-- Concrete non-exempt request used by the witnesses. -/
def demoReq : Request := ⟨"https://localhost:8000/api/profile", "GET", none⟩

/-- Concrete next handler: 401 on the first dispatch, success on the
re-issued request. -/
def demoNext : Nat → Request → NextResult := fun n _ => if n = 0 then .httpFail 401 else .ok

theorem c1_auth_interceptor_401_refresh_witness :
    dispatches
        (authInterceptorRun demoReq demoStore demoNext (.ok ⟨"newTok", "newRef", "u"⟩)
          true).events =
      [attachToken demoReq demoStore, setBearer demoReq "newTok"] ∧
    (authInterceptorRun demoReq demoStore demoNext (.ok ⟨"newTok", "newRef", "u"⟩)
        true).result = .ok () := by
  have h := c1_auth_interceptor_401_refresh demoReq demoStore demoNext
    (.ok ⟨"newTok", "newRef", "u"⟩) true (by decide) (by decide) (by decide)
  have h2 := h.2.1 ⟨"newTok", "newRef", "u"⟩ rfl (by decide) (by decide)
  exact ⟨h2.1, h2.2.1 (by decide)⟩

/-! ## C10: refresh success with an unusable stored token -/

/-- C10: when the refresh succeeds but the session store then yields no
usable access token, the interceptor runs logout, fails the request with
the distinct Token refresh failed error without re-issuing the original
request, and its surrounding error handler does not run logout a second
time for that error. -/
theorem c10_refresh_empty_token
    (req : Request) (st : Store) (next : Nat → Request → NextResult)
    (resp : AuthResponse) (notifyOk : Bool)
    (hskip : skipAuthUrl req.url = false)
    (hnr : containsSub req.url "/auth/refresh" = false)
    (h401 : next 0 (attachToken req st) = NextResult.httpFail 401)
    (hrt : truthy (getRefreshToken st) = true)
    (ha : resp.accessToken = "") :
    (authInterceptorRun req st next (.ok resp) notifyOk).result =
      .error (.jsError "Token refresh failed") ∧
    dispatches (authInterceptorRun req st next (.ok resp) notifyOk).events =
      [attachToken req st] ∧
    countLogoutCalls (authInterceptorRun req st next (.ok resp) notifyOk).events = 1 := by
  rcases eq_or_ne resp.refreshToken "" with hr | hr <;>
    simp [authInterceptorRun, hskip, h401, hnr, refreshTokenOp, hrt, ha, hr,
      getAccessToken_setAccessToken, getAccessToken_setRefreshToken, AppError.message]

theorem c10_refresh_empty_token_witness :
    (authInterceptorRun demoReq demoStore demoNext (.ok ⟨"", "newRef", "u"⟩) true).result =
      .error (.jsError "Token refresh failed") ∧
    dispatches (authInterceptorRun demoReq demoStore demoNext (.ok ⟨"", "newRef", "u"⟩)
        true).events = [attachToken demoReq demoStore] ∧
    countLogoutCalls (authInterceptorRun demoReq demoStore demoNext
        (.ok ⟨"", "newRef", "u"⟩) true).events = 1 :=
  c10_refresh_empty_token demoReq demoStore demoNext ⟨"", "newRef", "u"⟩ true
    (by decide) (by decide) (by decide) (by decide) rfl

/-! ## C6: the auth endpoint allow-list -/

/-- Login request as issued by AuthService.login, targeting apiUrl. -/
def apiLoginReq : Request := ⟨"https://localhost:8000/api/login", "POST", none⟩

/-- C6 counterexample: the login request issued by the auth session
manager itself targets apiUrl/login, which does not contain any
allow-list substring, so with a token in the session the attachment stage
adds an Authorization bearer header to it — the session manager requests
are not exempt. -/
theorem c6_counterexample :
    skipAuthUrl "https://localhost:8000/api/login" = false ∧
    dispatches (authInterceptorRun apiLoginReq demoStore (fun _ _ => .ok) (.error 401)
        true).events = [setBearer apiLoginReq "oldTok"] := by
  decide

/-- C6 amended: every request whose URL contains an allow-list substring
is passed through unchanged, with no Authorization header added and no
other effect on the session, even when an access token is present. -/
theorem c6_allowlist_passthrough
    (req : Request) (st : Store) (next : Nat → Request → NextResult)
    (server : Except Nat AuthResponse) (notifyOk : Bool)
    (h : skipAuthUrl req.url = true) :
    (authInterceptorRun req st next server notifyOk).events = [Event.dispatch req] ∧
    (authInterceptorRun req st next server notifyOk).store = st := by
  cases hn : next 0 req <;> simp [authInterceptorRun, h, hn]

/-- Request to an allow-listed URL with a token present in the session. -/
def authLoginReq : Request := ⟨"https://api.example.com/auth/login", "POST", none⟩

theorem c6_allowlist_passthrough_witness :
    (authInterceptorRun authLoginReq demoStore (fun _ _ => .ok) (.error 401) true).events =
      [Event.dispatch authLoginReq] :=
  (c6_allowlist_passthrough authLoginReq demoStore (fun _ _ => .ok) (.error 401) true
    (by decide)).1

/-! ## C3: the 401 classification branch -/

/-- C3: evaluation at the failing input. A 401 from a non-refresh URL
schedules the deferred login redirect with the attempted URL preserved,
and a 401 from the refresh endpoint takes neither branch; but
clearAuthentication removes only the legacy keys token, accessToken,
refreshToken, user and auth, while the session store persists under
access_token, refresh_token and user_data, so session store reads still
return the stored credentials after the handler ran. -/
theorem c3_clear_authentication_misses_session_keys :
    isRefreshUrl "https://localhost:8000/api/profile" = false ∧
    (handleUnauthorized "https://localhost:8000/api/profile" true true
        "Unauthorized. Please login again." "/meals" demoStore emptyStore).scheduledNav =
      some ("/login", "/meals") ∧
    getAccessToken (handleUnauthorized "https://localhost:8000/api/profile" true true
        "Unauthorized. Please login again." "/meals" demoStore emptyStore).ls =
      some "oldTok" ∧
    getRefreshToken (handleUnauthorized "https://localhost:8000/api/profile" true true
        "Unauthorized. Please login again." "/meals" demoStore emptyStore).ls =
      some "refTok" ∧
    getUser (handleUnauthorized "https://localhost:8000/api/profile" true true
        "Unauthorized. Please login again." "/meals" demoStore emptyStore).ls =
      some "userJson" ∧
    (handleUnauthorized "https://localhost:8000/api/refresh-token" true true
        "Unauthorized. Please login again." "/meals" demoStore emptyStore).scheduledNav =
      none := by
  decide

/-! ## C2: the retry policy -/

theorem handleRequest_ok (outcomes : Nat → NextResult) (attempt : Nat)
    (h : outcomes attempt = .ok) :
    handleRequest outcomes attempt = ⟨1, [], .ok⟩ := by
  unfold handleRequest
  rw [h]

theorem handleRequest_stop (outcomes : Nat → NextResult) (attempt status : Nat)
    (h : outcomes attempt = .httpFail status)
    (hn : ¬(attempt + 1 ≤ maxRetries ∧ (status = 0 ∨ 500 ≤ status))) :
    handleRequest outcomes attempt = ⟨1, [], .httpFail status⟩ := by
  unfold handleRequest
  rw [h]
  simp [hn]

theorem handleRequest_retry (outcomes : Nat → NextResult) (attempt status : Nat)
    (h : outcomes attempt = .httpFail status)
    (hy : attempt + 1 ≤ maxRetries ∧ (status = 0 ∨ 500 ≤ status)) :
    handleRequest outcomes attempt =
      ⟨(handleRequest outcomes (attempt + 1)).attempts + 1,
       (2 ^ attempt * initialDelay) :: (handleRequest outcomes (attempt + 1)).delays,
       (handleRequest outcomes (attempt + 1)).final⟩ := by
  conv_lhs => unfold handleRequest
  rw [h]
  simp [hy]

/-- C2: the attempt count is a total function of method, skip-retry flag
and failure status: a GET request without the skip flag whose attempts
all fail with status 0 or at least 500 is tried exactly 4 times with
delays 1000, 2000 and 4000 milliseconds between attempts and the last
failure surfaced; a non-GET request, a request with the skip flag, and
a GET failing with a 4xx status each get exactly one attempt and no
delay. -/
theorem c2_retry_policy :
    (∀ (req : RetryReq) (outcomes : Nat → NextResult),
      req.method = "GET" → req.headers.contains "X-Skip-Retry" = false →
      (∀ k, k < 4 → ∃ status, outcomes k = .httpFail status ∧ (status = 0 ∨ 500 ≤ status)) →
      retryInterceptorRun req outcomes = ⟨4, [1000, 2000, 4000], outcomes 3⟩) ∧
    (∀ (req : RetryReq) (outcomes : Nat → NextResult),
      req.method ≠ "GET" → retryInterceptorRun req outcomes = ⟨1, [], outcomes 0⟩) ∧
    (∀ (req : RetryReq) (outcomes : Nat → NextResult),
      req.headers.contains "X-Skip-Retry" = true →
      retryInterceptorRun req outcomes = ⟨1, [], outcomes 0⟩) ∧
    (∀ (req : RetryReq) (outcomes : Nat → NextResult) (status : Nat),
      req.method = "GET" → req.headers.contains "X-Skip-Retry" = false →
      outcomes 0 = .httpFail status → 400 ≤ status → status < 500 →
      retryInterceptorRun req outcomes = ⟨1, [], .httpFail status⟩) := by
  refine ⟨?_, ?_, ?_, ?_⟩
  · intro req outcomes hm hs hfail
    simp at hs
    obtain ⟨s0, h0, hr0⟩ := hfail 0 (by omega)
    obtain ⟨s1, h1, hr1⟩ := hfail 1 (by omega)
    obtain ⟨s2, h2, hr2⟩ := hfail 2 (by omega)
    obtain ⟨s3, h3, hr3⟩ := hfail 3 (by omega)
    have e0 := handleRequest_retry outcomes 0 s0 h0 ⟨by simp [maxRetries], hr0⟩
    have e1 := handleRequest_retry outcomes 1 s1 h1 ⟨by simp [maxRetries], hr1⟩
    have e2 := handleRequest_retry outcomes 2 s2 h2 ⟨by simp [maxRetries], hr2⟩
    have e3 := handleRequest_stop outcomes 3 s3 h3 (by simp [maxRetries])
    simp [retryInterceptorRun, hm, hs, e0, e1, e2, e3, initialDelay, h3]
  · intro req outcomes hm
    simp [retryInterceptorRun, hm]
  · intro req outcomes hs
    simp at hs
    rcases eq_or_ne req.method "GET" with hm | hm <;>
      simp [retryInterceptorRun, hm, hs]
  · intro req outcomes status hm hs h0 h4a h4b
    simp at hs
    have e0 := handleRequest_stop outcomes 0 status h0 (by simp [maxRetries]; omega)
    simp [retryInterceptorRun, hm, hs, e0]

theorem c2_retry_policy_witness :
    retryInterceptorRun ⟨"GET", []⟩ (fun _ => .httpFail 500) =
      ⟨4, [1000, 2000, 4000], .httpFail 500⟩ ∧
    retryInterceptorRun ⟨"POST", []⟩ (fun _ => .httpFail 500) = ⟨1, [], .httpFail 500⟩ ∧
    retryInterceptorRun ⟨"GET", ["X-Skip-Retry"]⟩ (fun _ => .httpFail 0) =
      ⟨1, [], .httpFail 0⟩ ∧
    retryInterceptorRun ⟨"GET", []⟩ (fun _ => .httpFail 404) = ⟨1, [], .httpFail 404⟩ := by
  refine ⟨?_, ?_, ?_, ?_⟩
  · exact c2_retry_policy.1 ⟨"GET", []⟩ (fun _ => .httpFail 500) rfl (by decide)
      (fun k _ => ⟨500, rfl, by omega⟩)
  · exact c2_retry_policy.2.1 ⟨"POST", []⟩ (fun _ => .httpFail 500) (by decide)
  · exact c2_retry_policy.2.2.1 ⟨"GET", ["X-Skip-Retry"]⟩ (fun _ => .httpFail 0) (by decide)
  · exact c2_retry_policy.2.2.2 ⟨"GET", []⟩ (fun _ => .httpFail 404) 404 rfl (by decide)
      rfl (by omega) (by omega)

/-! ## C7: 422 validation notifications -/

/-- C7: with notifications enabled, a 422 whose body carries a
field-to-messages map with N total messages produces exactly N
notifications, each titled with its field, while a 422 without such a map
produces exactly one generic validation notification. -/
theorem c7_validation_notifications (entries : List (String × JsonMsgs))
    (bodyMessage : Option String) :
    (handleValidationError true (some entries) bodyMessage).length =
      (entries.map fun e => (msgsList e.2).length).sum ∧
    (∀ t ∈ handleValidationError true (some entries) bodyMessage,
      ∃ e ∈ entries, t.1 ∈ msgsList e.2 ∧ t.2 = "Validation Error: " ++ e.1) ∧
    (handleValidationError true none bodyMessage).length = 1 := by
  refine ⟨?_, ?_, ?_⟩
  · simp [handleValidationError, List.length_flatMap, Function.comp_def]
  · intro t ht
    simp only [handleValidationError, Bool.true_eq_false, if_false, List.mem_flatMap,
      List.mem_map, reduceIte] at ht
    obtain ⟨e, he, m, hm, rfl⟩ := ht
    exact ⟨e, he, hm, rfl⟩
  · simp [handleValidationError]

theorem c7_validation_notifications_witness :
    (handleValidationError true
        (some [("email", .many ["bad email", "too long"]), ("name", .one "required")])
        none).length = 3 ∧
    (handleValidationError true none none).length = 1 := by
  refine ⟨?_, (c7_validation_notifications [] none).2.2⟩
  have h := (c7_validation_notifications
    [("email", .many ["bad email", "too long"]), ("name", .one "required")] none).1
  rw [h]
  decide

/-! ## C8: guard scenarios -/

/-- C8: unauthenticated users hitting a role guard are redirected to the
login route with the attempted URL as returnUrl; authenticated users
whose role is outside a nonempty accepted set are redirected to the
unauthorized route, while an absent or empty set admits any authenticated
user; an authenticated admin hitting the guest guard is redirected to the
admin dashboard; an unauthenticated user passes the auto-login guard. -/
theorem c8_guard_scenarios :
    (∀ (snap : AuthSnapshot) (requiredRoles : Option (List UserRole)) (stateUrl : String),
      snap.isAuth = false →
      roleGuard snap requiredRoles stateUrl = .redirect "/auth/login" (some stateUrl)) ∧
    (∀ (snap : AuthSnapshot) (roles : List UserRole) (stateUrl : String) (r : UserRole),
      snap.isAuth = true → snap.role = some r → roles ≠ [] → r ∉ roles →
      roleGuard snap (some roles) stateUrl = .redirect "/unauthorized" none) ∧
    (∀ (snap : AuthSnapshot) (stateUrl : String), snap.isAuth = true →
      roleGuard snap none stateUrl = .allow ∧ roleGuard snap (some []) stateUrl = .allow) ∧
    (∀ snap : AuthSnapshot, snap.isAuth = true → snap.role = some .admin →
      guestGuard snap = .redirect "/admin/dashboard" none) ∧
    (∀ snap : AuthSnapshot, snap.isAuth = false → autoLoginGuard snap = .allow) := by
  refine ⟨?_, ?_, ?_, ?_, ?_⟩
  · intro snap requiredRoles stateUrl h
    cases requiredRoles <;> simp [roleGuard, h]
  · intro snap roles stateUrl r hauth hrole hne hmem
    simp [roleGuard, hauth, hasAnyRole, hrole, hne, hmem,
      List.length_eq_zero]
  · intro snap stateUrl hauth
    exact ⟨by simp [roleGuard, hauth], by simp [roleGuard, hauth]⟩
  · intro snap hauth hrole
    simp [guestGuard, hauth, hrole, dashboardRoute]
  · intro snap h
    simp [autoLoginGuard, h]

theorem c8_guard_scenarios_witness :
    roleGuard ⟨false, none⟩ (some [.customer]) "/customer/orders" =
      .redirect "/auth/login" (some "/customer/orders") ∧
    roleGuard ⟨true, some .cook⟩ (some [.customer]) "/customer/orders" =
      .redirect "/unauthorized" none ∧
    roleGuard ⟨true, some .cook⟩ (some []) "/customer/orders" = .allow ∧
    guestGuard ⟨true, some .admin⟩ = .redirect "/admin/dashboard" none ∧
    autoLoginGuard ⟨false, none⟩ = .allow := by
  refine ⟨?_, ?_, ?_, ?_, ?_⟩
  · exact c8_guard_scenarios.1 ⟨false, none⟩ (some [.customer]) "/customer/orders" rfl
  · exact c8_guard_scenarios.2.1 ⟨true, some .cook⟩ [.customer] "/customer/orders" .cook
      rfl rfl (by decide) (by decide)
  · exact (c8_guard_scenarios.2.2.1 ⟨true, some .cook⟩ "/customer/orders" rfl).2
  · exact c8_guard_scenarios.2.2.2.1 ⟨true, some .admin⟩ rfl rfl
  · exact c8_guard_scenarios.2.2.2.2 ⟨false, none⟩ rfl

/-! ## C9: codec round trip and failure totality -/

theorem b64Index_b64Char : ∀ s, s < 64 → b64Index (b64Char s) = some s := by decide

theorem b64Char_ne_pad : ∀ s, s < 64 → (b64Char s == '=') = false := by decide

theorem b64Char_png : ∀ n, 64 ≤ n → b64Char n = '=' := by
  intro n h
  rw [b64Char, List.getD_eq_default]
  have : b64Alphabet.length = 64 := by decide
  omega

theorem b64UrlToB64_b64Char : ∀ n, b64UrlToB64 (b64Char n) = b64Char n := by
  intro n
  by_cases h : n < 64
  · revert h
    revert n
    decide
  · rw [b64Char_png n (by omega)]
    decide

theorem b64Char_ne_dot : ∀ n, ¬(b64Char n = '.') := by
  intro n
  by_cases h : n < 64
  · revert h
    revert n
    decide
  · rw [b64Char_png n (by omega)]
    decide

theorem mem_b64EncodeBytes : ∀ (l : List Nat) (c : Char), c ∈ b64EncodeBytes l →
    (∃ n, c = b64Char n) ∨ c = '='
  | [], c, h => by simp [b64EncodeBytes] at h
  | [b0], c, h => by
    simp [b64EncodeBytes] at h
    rcases h with rfl | rfl | rfl
    · exact .inl ⟨_, rfl⟩
    · exact .inl ⟨_, rfl⟩
    · exact .inr rfl
  | [b0, b1], c, h => by
    simp [b64EncodeBytes] at h
    rcases h with rfl | rfl | rfl | rfl
    · exact .inl ⟨_, rfl⟩
    · exact .inl ⟨_, rfl⟩
    · exact .inl ⟨_, rfl⟩
    · exact .inr rfl
  | b0 :: b1 :: b2 :: rest, c, h => by
    simp only [b64EncodeBytes, List.mem_cons] at h
    rcases h with rfl | rfl | rfl | rfl | h
    · exact .inl ⟨_, rfl⟩
    · exact .inl ⟨_, rfl⟩
    · exact .inl ⟨_, rfl⟩
    · exact .inl ⟨_, rfl⟩
    · exact mem_b64EncodeBytes rest c h

theorem b64EncodeBytes_dot_not_mem (l : List Nat) : '.' ∉ b64EncodeBytes l := by
  intro hm
  rcases mem_b64EncodeBytes l '.' hm with ⟨n, hn⟩ | he
  · exact b64Char_ne_dot n hn.symm
  · exact absurd he (by decide)

theorem map_b64UrlToB64_encode (l : List Nat) :
    (b64EncodeBytes l).map b64UrlToB64 = b64EncodeBytes l := by
  have h : ∀ c ∈ b64EncodeBytes l, b64UrlToB64 c = c := by
    intro c hc
    rcases mem_b64EncodeBytes l c hc with ⟨n, rfl⟩ | rfl
    · exact b64UrlToB64_b64Char n
    · decide
  calc (b64EncodeBytes l).map b64UrlToB64 = (b64EncodeBytes l).map id :=
        List.map_congr_left h
    _ = b64EncodeBytes l := List.map_id _

theorem atob_b64EncodeBytes : ∀ bytes : List Nat, (∀ b ∈ bytes, b < 256) →
    atobChars (b64EncodeBytes bytes) = some bytes
  | [], _ => rfl
  | [b0], h => by
    have hb0 : b0 < 256 := h b0 (by simp)
    have h1 : b0 / 4 < 64 := by omega
    have h2 : b0 % 4 * 16 < 64 := by omega
    simp [b64EncodeBytes, atobChars, b64Index_b64Char _ h1, b64Index_b64Char _ h2]
    omega
  | [b0, b1], h => by
    have hb0 : b0 < 256 := h b0 (by simp)
    have hb1 : b1 < 256 := h b1 (by simp)
    have h1 : b0 / 4 < 64 := by omega
    have h2 : b0 % 4 * 16 + b1 / 16 < 64 := by omega
    have h3 : b1 % 16 * 4 < 64 := by omega
    simp [b64EncodeBytes, atobChars, b64Index_b64Char _ h1, b64Index_b64Char _ h2,
      b64Index_b64Char _ h3, b64Char_ne_pad _ h3]
    constructor <;> omega
  | b0 :: b1 :: b2 :: rest, h => by
    have hb0 : b0 < 256 := h b0 (by simp)
    have hb1 : b1 < 256 := h b1 (by simp)
    have hb2 : b2 < 256 := h b2 (by simp)
    have ih := atob_b64EncodeBytes rest (fun b hb => h b (by simp [hb]))
    have h1 : b0 / 4 < 64 := by omega
    have h2 : b0 % 4 * 16 + b1 / 16 < 64 := by omega
    have h3 : b1 % 16 * 4 + b2 / 64 < 64 := by omega
    have h4 : b2 % 64 < 64 := by omega
    simp [b64EncodeBytes, atobChars, b64Index_b64Char _ h1, b64Index_b64Char _ h2,
      b64Index_b64Char _ h3, b64Index_b64Char _ h4, b64Char_ne_pad _ h3,
      b64Char_ne_pad _ h4, ih]
    refine ⟨by omega, by omega, by omega⟩

theorem utf8Encode_ascii_lt : ∀ cs : List Char, (∀ c ∈ cs, c.toNat < 128) →
    ∀ b ∈ utf8Encode cs, b < 256
  | [], _ => by simp [utf8Encode]
  | c :: cs, h => by
    have hc : c.toNat < 128 := h c (by simp)
    intro b hb
    simp only [utf8Encode, if_pos hc, List.cons_append, List.nil_append,
      List.mem_cons] at hb
    rcases hb with rfl | hb
    · omega
    · exact utf8Encode_ascii_lt cs (fun d hd => h d (by simp [hd])) b hb

theorem utf8Step_ascii (b : Nat) (hb : b < 128) (bs : List Nat) :
    utf8Step b bs = some (b, bs) := by
  unfold utf8Step
  rw [if_pos hb]

theorem utf8Decode_nil : utf8Decode [] = some [] := by
  rw [utf8Decode]

theorem utf8Decode_cons_step (b : Nat) (bs : List Nat) (out : Nat × List Nat)
    (h : utf8Step b bs = some out) :
    utf8Decode (b :: bs) =
      (utf8Decode out.2).bind fun rest => some (Char.ofNat out.1 :: rest) := by
  rw [utf8Decode]
  split <;> simp_all

theorem utf8Decode_ascii_cons (b : Nat) (hb : b < 128) (bs : List Nat) :
    utf8Decode (b :: bs) =
      (utf8Decode bs).bind fun rest => some (Char.ofNat b :: rest) :=
  utf8Decode_cons_step b bs (b, bs) (utf8Step_ascii b hb bs)

theorem utf8Decode_utf8Encode_ascii : ∀ cs : List Char, (∀ c ∈ cs, c.toNat < 128) →
    utf8Decode (utf8Encode cs) = some cs
  | [], _ => utf8Decode_nil
  | c :: cs, h => by
    have hc : c.toNat < 128 := h c (by simp)
    have ih := utf8Decode_utf8Encode_ascii cs (fun d hd => h d (by simp [hd]))
    simp only [utf8Encode, if_pos hc, List.cons_append, List.nil_append]
    rw [utf8Decode_ascii_cons _ hc, ih]
    simp [Char.ofNat_toNat]

theorem splitOnChar_not_mem (sep : Char) : ∀ cs : List Char, sep ∉ cs →
    splitOnChar sep cs = [cs]
  | [], _ => rfl
  | c :: cs, h => by
    have hc : (c == sep) = false := by
      rw [beq_eq_false_iff_ne]
      rintro rfl
      exact h (List.mem_cons_self _ _)
    have ih := splitOnChar_not_mem sep cs (fun hm => h (List.mem_cons_of_mem _ hm))
    simp [splitOnChar, ih, hc]

theorem splitOnChar_append (sep : Char) : ∀ (a rest : List Char), sep ∉ a →
    splitOnChar sep (a ++ sep :: rest) = a :: splitOnChar sep rest
  | [], rest, _ => by simp [splitOnChar]
  | c :: a, rest, h => by
    have hc : (c == sep) = false := by
      rw [beq_eq_false_iff_ne]
      rintro rfl
      exact h (List.mem_cons_self _ _)
    have ih := splitOnChar_append sep a rest (fun hm => h (List.mem_cons_of_mem _ hm))
    simp [splitOnChar, ih, hc]

theorem stripChars_append : ∀ pat rest : List Char, stripChars pat (pat ++ rest) = some rest
  | [], rest => rfl
  | p :: ps, rest => by simp [stripChars, stripChars_append ps rest]

theorem stripChars_cons_same (c : Char) (ps t : List Char) :
    stripChars (c :: ps) (c :: t) = stripChars ps t := by
  simp [stripChars]

theorem takeUntilQuote_append : ∀ (s rest : List Char), '"' ∉ s →
    takeUntilQuote (s ++ '"' :: rest) = some (s, rest)
  | [], rest, _ => by simp [takeUntilQuote]
  | c :: s, rest, h => by
    have hc : (c == '"') = false := by
      rw [beq_eq_false_iff_ne]
      rintro rfl
      exact h (List.mem_cons_self _ _)
    have ih := takeUntilQuote_append s rest (fun hm => h (List.mem_cons_of_mem _ hm))
    simp [takeUntilQuote, ih, hc]

theorem digitChar_toNat : ∀ d, d < 10 → (digitChar d).toNat = 48 + d := by decide

theorem isDigitC_digitChar : ∀ d, d < 10 → isDigitC (digitChar d) = true := by decide

theorem natToCharsAux_digits : ∀ (n : Nat) (acc : List Char),
    (∀ c ∈ acc, isDigitC c = true) → ∀ c ∈ natToCharsAux n acc, isDigitC c = true
  | 0, acc, hacc => by simpa [natToCharsAux] using hacc
  | n + 1, acc, hacc => by
    rw [natToCharsAux]
    refine natToCharsAux_digits ((n + 1) / 10) _ ?_
    intro c hc
    rcases List.mem_cons.mp hc with rfl | hc
    · exact isDigitC_digitChar _ (Nat.mod_lt _ (by omega))
    · exact hacc c hc
decreasing_by exact Nat.div_lt_self (Nat.succ_pos n) (by omega)

theorem natToChars_digits (n : Nat) : ∀ c ∈ natToChars n, isDigitC c = true := by
  rcases eq_or_ne n 0 with rfl | h
  · decide
  · rw [natToChars, if_neg h]
    exact natToCharsAux_digits n [] (by simp)

theorem natToCharsAux_ne_nil : ∀ (n : Nat) (acc : List Char), acc ≠ [] →
    natToCharsAux n acc ≠ []
  | 0, acc, h => by simpa [natToCharsAux] using h
  | n + 1, acc, h => by
    rw [natToCharsAux]
    exact natToCharsAux_ne_nil _ _ (by simp)
decreasing_by exact Nat.div_lt_self (Nat.succ_pos n) (by omega)

theorem natToChars_ne_nil (n : Nat) : natToChars n ≠ [] := by
  rcases eq_or_ne n 0 with rfl | h
  · decide
  · rw [natToChars, if_neg h]
    rcases n with _ | m
    · exact absurd rfl h
    · rw [natToCharsAux]
      exact natToCharsAux_ne_nil _ _ (by simp)

theorem natToChars_isEmpty (n : Nat) : (natToChars n).isEmpty = false := by
  cases h : natToChars n with
  | nil => exact absurd h (natToChars_ne_nil n)
  | cons a l => rfl

theorem foldl_natToCharsAux : ∀ (n : Nat) (acc : List Char) (a : Nat),
    List.foldl (fun x c => x * 10 + (c.toNat - 48)) a (natToCharsAux n acc) =
      List.foldl (fun x c => x * 10 + (c.toNat - 48)) (a * 10 ^ digitCount n + n) acc
  | 0, acc, a => by simp [natToCharsAux, digitCount]
  | n + 1, acc, a => by
    rw [natToCharsAux, foldl_natToCharsAux ((n + 1) / 10) _ a]
    have hd : (digitChar ((n + 1) % 10)).toNat = 48 + (n + 1) % 10 :=
      digitChar_toNat _ (Nat.mod_lt _ (by omega))
    have hstep : digitCount (n + 1) = digitCount ((n + 1) / 10) + 1 := by
      rw [digitCount]
    rw [List.foldl_cons, hd, hstep]
    congr 1
    calc (a * 10 ^ digitCount ((n + 1) / 10) + (n + 1) / 10) * 10 + (48 + (n + 1) % 10 - 48)
        = a * (10 ^ digitCount ((n + 1) / 10) * 10) + ((n + 1) / 10 * 10 + (n + 1) % 10) := by
          ring_nf
          omega
      _ = a * 10 ^ (digitCount ((n + 1) / 10) + 1) + (n + 1) := by
          rw [pow_succ, Nat.div_add_mod']
decreasing_by exact Nat.div_lt_self (Nat.succ_pos n) (by omega)

theorem charsToNat_natToChars (n : Nat) : charsToNat (natToChars n) = n := by
  rcases eq_or_ne n 0 with rfl | h
  · rfl
  · rw [natToChars, if_neg h]
    have := foldl_natToCharsAux n [] 0
    simpa [charsToNat] using this

theorem takeDigits_append : ∀ (a : List Char), (∀ c ∈ a, isDigitC c = true) →
    ∀ (c0 : Char), isDigitC c0 = false → ∀ rest : List Char,
    takeDigits (a ++ c0 :: rest) = (a, c0 :: rest)
  | [], _, c0, hc0, rest => by simp [takeDigits, hc0]
  | c :: a, ha, c0, hc0, rest => by
    have hc := ha c (by simp)
    have ih := takeDigits_append a (fun d hd => ha d (by simp [hd])) c0 hc0 rest
    simp only [takeDigits, Prod.mk.injEq, List.cons_append, List.takeWhile_cons, hc,
      List.dropWhile_cons, if_true] at ih ⊢
    exact ⟨by rw [ih.1], ih.2⟩

theorem mk_chars (s : String) : String.mk (chars s) = s := rfl

theorem parse_jsonOfPayload (p : TokenPayload)
    (hsub : '"' ∉ chars p.sub) (hemail : '"' ∉ chars p.email)
    (hrole : '"' ∉ chars p.role) :
    parsePayload (jsonOfPayload p) = some p := by
  have hL5 : chars ",\"exp\":" = ',' :: chars "\"exp\":" := rfl
  have tq1 : ∀ rest, takeUntilQuote (chars p.sub ++ '"' :: rest) = some (chars p.sub, rest) :=
    fun rest => takeUntilQuote_append _ rest hsub
  have tq2 : ∀ rest, takeUntilQuote (chars p.email ++ '"' :: rest) = some (chars p.email, rest) :=
    fun rest => takeUntilQuote_append _ rest hemail
  have tq3 : ∀ rest, takeUntilQuote (chars p.role ++ '"' :: rest) = some (chars p.role, rest) :=
    fun rest => takeUntilQuote_append _ rest hrole
  have td1 : ∀ rest, takeDigits (natToChars p.iat ++ ',' :: rest) = (natToChars p.iat, ',' :: rest) :=
    fun rest => takeDigits_append _ (natToChars_digits p.iat) ',' (by decide) rest
  have td2 : takeDigits (natToChars p.exp ++ '\x7d' :: []) = (natToChars p.exp, '\x7d' :: []) :=
    takeDigits_append _ (natToChars_digits p.exp) '\x7d' (by decide) []
  simp only [jsonOfPayload, parsePayload, Option.bind_eq_bind, Option.pure_def,
    Option.some_bind, stripChars_append, hL5, stripChars_cons_same, tq1, tq2, tq3,
    td1, td2, natToChars_isEmpty, charsToNat_natToChars, mk_chars]
  simp [natToChars_ne_nil]

theorem isDigitC_lt (c : Char) (h : isDigitC c = true) : c.toNat < 128 := by
  simp only [isDigitC, Bool.and_eq_true, decide_eq_true_eq] at h
  omega

theorem jsonOfPayload_ascii (p : TokenPayload)
    (h1 : ∀ c ∈ chars p.sub, c.toNat < 128) (h2 : ∀ c ∈ chars p.email, c.toNat < 128)
    (h3 : ∀ c ∈ chars p.role, c.toNat < 128) :
    ∀ c ∈ jsonOfPayload p, c.toNat < 128 := by
  have lit1 : ∀ x ∈ chars "\x7b\"sub\":\"", x.toNat < 128 := by decide
  have lit2 : ∀ x ∈ chars "\",\"email\":\"", x.toNat < 128 := by decide
  have lit3 : ∀ x ∈ chars "\",\"role\":\"", x.toNat < 128 := by decide
  have lit4 : ∀ x ∈ chars "\",\"iat\":", x.toNat < 128 := by decide
  have lit5 : ∀ x ∈ chars ",\"exp\":", x.toNat < 128 := by decide
  have lit6 : ∀ x ∈ chars "\x7d", x.toNat < 128 := by decide
  have lit2b : ∀ x ∈ chars ",\"email\":\"", x.toNat < 128 := by decide
  have lit3b : ∀ x ∈ chars ",\"role\":\"", x.toNat < 128 := by decide
  have lit4b : ∀ x ∈ chars ",\"iat\":", x.toNat < 128 := by decide
  have lit5b : ∀ x ∈ chars "\"exp\":", x.toNat < 128 := by decide
  intro c hc
  simp only [jsonOfPayload, List.mem_append, List.mem_cons, List.mem_singleton,
    List.not_mem_nil, or_false] at hc
  rcases hc with hc | hc | rfl | hc | hc | rfl | hc | hc | rfl | hc | hc | rfl | hc | hc | rfl
  · exact lit1 c hc
  · exact h1 c hc
  · decide
  · exact lit2b c hc
  · exact h2 c hc
  · decide
  · exact lit3b c hc
  · exact h3 c hc
  · decide
  · exact lit4b c hc
  · exact isDigitC_lt c (natToChars_digits p.iat c hc)
  · decide
  · exact lit5b c hc
  · exact isDigitC_lt c (natToChars_digits p.exp c hc)
  · decide

theorem plainField_spec (s : String) (h : plainField s = true) :
    '"' ∉ chars s ∧ ∀ c ∈ chars s, c.toNat < 128 := by
  simp only [plainField, List.all_eq_true, Bool.and_eq_true, decide_eq_true_eq,
    bne_iff_ne, ne_eq] at h
  exact ⟨fun hq => (h '"' hq).2 rfl, fun c hc => (h c hc).1⟩

theorem decode_encode (hdr sig : String) (p : TokenPayload)
    (hsub : plainField p.sub = true) (hemail : plainField p.email = true)
    (hrole : plainField p.role = true) :
    decodeTokenOpt (encodeToken hdr p sig) = some p := by
  obtain ⟨hq1, ha1⟩ := plainField_spec _ hsub
  obtain ⟨hq2, ha2⟩ := plainField_spec _ hemail
  obtain ⟨hq3, ha3⟩ := plainField_spec _ hrole
  have hascii := jsonOfPayload_ascii p ha1 ha2 ha3
  have hsplit : splitOnChar '.' (chars (encodeToken hdr p sig)) =
      [b64EncodeBytes (utf8Encode (chars hdr)),
       b64EncodeBytes (utf8Encode (jsonOfPayload p)),
       b64EncodeBytes (utf8Encode (chars sig))] := by
    show splitOnChar '.'
        (b64EncodeBytes (utf8Encode (chars hdr)) ++
         '.' :: b64EncodeBytes (utf8Encode (jsonOfPayload p)) ++
         '.' :: b64EncodeBytes (utf8Encode (chars sig))) = _
    rw [List.append_assoc, List.cons_append]
    rw [splitOnChar_append '.' _ _ (b64EncodeBytes_dot_not_mem _)]
    rw [splitOnChar_append '.' _ _ (b64EncodeBytes_dot_not_mem _)]
    rw [splitOnChar_not_mem '.' _ (b64EncodeBytes_dot_not_mem _)]
  simp only [decodeTokenOpt, hsplit, List.getElem?_cons_succ, List.getElem?_cons_zero,
    Option.bind_eq_bind, Option.pure_def, Option.some_bind, map_b64UrlToB64_encode,
    atob_b64EncodeBytes _ (utf8Encode_ascii_lt _ hascii),
    utf8Decode_utf8Encode_ascii _ hascii, parse_jsonOfPayload p hq1 hq2 hq3]

/-- C9: a well-formed token encoding a payload whose expiry is in the
future validates as true; the same encoding with expiry in the past
validates as false; and every string whose decode pipeline fails at any
stage, including wrong segment structure and unparsable payloads,
validates as false without throwing. -/
theorem c9_token_validity (hdr sig : String) (p : TokenPayload) (now : Nat)
    (hsub : plainField p.sub = true) (hemail : plainField p.email = true)
    (hrole : plainField p.role = true) :
    (now < p.exp → isTokenValid (encodeToken hdr p sig) now = true) ∧
    (p.exp ≤ now → isTokenValid (encodeToken hdr p sig) now = false) ∧
    (∀ token, decodeTokenOpt token = none → isTokenValid token now = false) := by
  have hdec := decode_encode hdr sig p hsub hemail hrole
  refine ⟨?_, ?_, ?_⟩
  · intro h
    simp [isTokenValid, hdec, h]
  · intro h
    simp only [isTokenValid, hdec, decide_eq_false_iff_not]
    omega
  · intro token ht
    simp [isTokenValid, ht]

theorem c9_token_validity_witness :
    isTokenValid (encodeToken "hdr" ⟨"u1", "a@b.c", "customer", 5, 99⟩ "sig") 98 = true ∧
    isTokenValid (encodeToken "hdr" ⟨"u1", "a@b.c", "customer", 5, 99⟩ "sig") 99 = false ∧
    isTokenValid "not-a-token" 99 = false :=
  ⟨(c9_token_validity "hdr" "sig" ⟨"u1", "a@b.c", "customer", 5, 99⟩ 98
      (by decide) (by decide) (by decide)).1 (by decide),
   (c9_token_validity "hdr" "sig" ⟨"u1", "a@b.c", "customer", 5, 99⟩ 99
      (by decide) (by decide) (by decide)).2.1 (by decide),
   (c9_token_validity "hdr" "sig" ⟨"u1", "a@b.c", "customer", 5, 99⟩ 99
      (by decide) (by decide) (by decide)).2.2 "not-a-token" (by decide)⟩

end HCMM
